import Mathlib

/-!
# Verification of the Ares automatic decoder

A shallow embedding of the parts of the Ares repository
(`src/cryptanalysis/mod.rs`, `src/checkers/english.rs`, `src/checkers/athena.rs`,
`src/decoders/{xor,rot5,rot18,hash_crack}_decoder.rs`,
`src/filtration_system/mod.rs`, `src/lib.rs`) together with proofs and
refutations of the specification's claims about them.

Rust strings are modelled as lists of Unicode code points (`RString`);
`f64` values are modelled as exact rationals (`ℚ`), with
`f64::MAX` / `f64::MIN` modelled by the exact extreme finite doubles.
All the quantities compared against thresholds in this code are far from
the thresholds relative to `f64` rounding error, so the rational model is
faithful for every comparison that appears in a theorem below.
-/

set_option maxRecDepth 100000
set_option exponentiation.threshold 2000

namespace Ares

/-- A Rust `String`/`&str`, modelled as its list of Unicode scalar values. -/
abbrev RString := List Nat

/-- Convert a Lean string literal to the `RString` model. -/
def str (s : String) : RString := s.toList.map Char.toNat

/-! ## Character classification (mirrors Rust `char::is_ascii_*`) -/

/-- Rust `char::is_ascii_digit`. -/
def isAsciiDigit (c : Nat) : Bool := 48 ≤ c && c ≤ 57

/-- Rust `char::is_ascii_uppercase`. -/
def isAsciiUppercase (c : Nat) : Bool := 65 ≤ c && c ≤ 90

/-- Rust `char::is_ascii_lowercase`. -/
def isAsciiLowercase (c : Nat) : Bool := 97 ≤ c && c ≤ 122

/-- Rust `char::is_ascii_alphabetic`. -/
def isAsciiAlphabetic (c : Nat) : Bool := isAsciiUppercase c || isAsciiLowercase c

/-- Rust `char::is_ascii_alphanumeric`. -/
def isAsciiAlphanumeric (c : Nat) : Bool := isAsciiAlphabetic c || isAsciiDigit c

/-- Rust `char::is_ascii_punctuation`: `!..'/'`, `:..'@'`, `[..'`'`, `{..'~'`. -/
def isAsciiPunctuation (c : Nat) : Bool :=
  (33 ≤ c && c ≤ 47) || (58 ≤ c && c ≤ 64) || (91 ≤ c && c ≤ 96) || (123 ≤ c && c ≤ 126)

/-- Rust `char::is_ascii_hexdigit`. -/
def isAsciiHexdigit (c : Nat) : Bool :=
  isAsciiDigit c || (97 ≤ c && c ≤ 102) || (65 ≤ c && c ≤ 70)

/-- Rust `char::is_whitespace`, restricted to the ASCII whitespace characters
(space, tab, newline, carriage return, vertical tab, form feed); the inputs
appearing in the development are ASCII. -/
def isWhitespace (c : Nat) : Bool :=
  c == 32 || c == 9 || c == 10 || c == 13 || c == 11 || c == 12

/-- ASCII uppercase of one code point (Rust `to_uppercase` on ASCII letters;
non-ASCII code points are returned unchanged, which agrees with Rust on the
ASCII-only texts this development evaluates). -/
def toAsciiUpper (c : Nat) : Nat := if isAsciiLowercase c then c - 32 else c

/-- ASCII lowercase of one code point. -/
def toAsciiLower (c : Nat) : Nat := if isAsciiUppercase c then c + 32 else c

/-- Rust `str::to_uppercase` (ASCII fragment). -/
def toUppercase (s : RString) : RString := s.map toAsciiUpper

/-- Rust `str::to_lowercase` (ASCII fragment). -/
def toLowercase (s : RString) : RString := s.map toAsciiLower

/-- Rust `str::trim` (ASCII whitespace fragment). -/
def trim (s : RString) : RString :=
  (s.dropWhile (fun c => isWhitespace c)).reverse.dropWhile (fun c => isWhitespace c) |>.reverse

/-! ## UTF-8

`str::len()` in Rust is the byte length of the UTF-8 encoding, and the XOR
decoder operates on `str::as_bytes()`.  We model the encoding exactly. -/

/-- UTF-8 encoding of one Unicode scalar value. -/
def utf8EncodeChar (c : Nat) : List Nat :=
  if c < 128 then [c]
  else if c < 2048 then [192 + c / 64, 128 + c % 64]
  else if c < 65536 then [224 + c / 4096, 128 + (c / 64) % 64, 128 + c % 64]
  else [240 + c / 262144, 128 + (c / 4096) % 64, 128 + (c / 64) % 64, 128 + c % 64]

/-- Rust `str::as_bytes`: the UTF-8 encoding of the string. -/
def utf8Encode (s : RString) : List Nat := s.flatMap utf8EncodeChar

/-- Rust `str::len`: the UTF-8 byte length. -/
def utf8Length (s : RString) : Nat := (utf8Encode s).length

/-- Is this byte a UTF-8 continuation byte (`10xxxxxx`)? -/
def isCont (b : Nat) : Bool := 128 ≤ b && b ≤ 191

/-- UTF-8 decoding (Rust `String::from_utf8`): returns `none` on invalid
byte sequences.  Overlong encodings, surrogates and out-of-range values are
rejected, as in Rust. -/
def utf8Decode : List Nat → Option RString
  | [] => some []
  | b :: bs =>
    if b < 128 then
      match utf8Decode bs with
      | some cs => some (b :: cs)
      | none => none
    else if 194 ≤ b && b ≤ 223 then
      match bs with
      | b1 :: bs1 =>
        if isCont b1 then
          match utf8Decode bs1 with
          | some cs => some (((b - 192) * 64 + (b1 - 128)) :: cs)
          | none => none
        else none
      | [] => none
    else if 224 ≤ b && b ≤ 239 then
      match bs with
      | b1 :: b2 :: bs2 =>
        if isCont b1 && isCont b2 then
          let c := (b - 224) * 4096 + (b1 - 128) * 64 + (b2 - 128)
          if 2048 ≤ c && ¬(55296 ≤ c && c ≤ 57343) then
            match utf8Decode bs2 with
            | some cs => some (c :: cs)
            | none => none
          else none
        else none
      | _ => none
    else if 240 ≤ b && b ≤ 244 then
      match bs with
      | b1 :: b2 :: b3 :: bs3 =>
        if isCont b1 && isCont b2 && isCont b3 then
          let c := (b - 240) * 262144 + (b1 - 128) * 4096 + (b2 - 128) * 64 + (b3 - 128)
          if 65536 ≤ c && c ≤ 1114111 then
            match utf8Decode bs3 with
            | some cs => some (c :: cs)
            | none => none
          else none
        else none
      | _ => none
    else none

/-! ## `f64` extreme values

`f64::MAX = (2 - 2⁻⁵²)·2¹⁰²³` and `f64::MIN = -f64::MAX`, modelled exactly. -/

/-! ## Kernel-computable rational arithmetic

The Batteries definitions of `Rat.add`, `Rat.sub`, `Rat.mul` and `Rat.inv`
are `@[irreducible]`, so closed terms built from `+`, `-`, `*`, `/` on `ℚ`
cannot be evaluated by `decide`.  The embedding therefore uses the following
wrappers, built on the reducible smart constructor `mkRat`; each is proved
equal to the corresponding field operation (`qadd_eq` etc. below), so they
denote exactly rational addition, subtraction, multiplication and
division. -/

/-- Rational addition (reducible; equals `a + b`). -/
def qadd (a b : ℚ) : ℚ := mkRat (a.num * b.den + b.num * a.den) (a.den * b.den)

/-- Rational subtraction (reducible; equals `a - b`). -/
def qsub (a b : ℚ) : ℚ := mkRat (a.num * b.den - b.num * a.den) (a.den * b.den)

/-- Rational multiplication (reducible; equals `a * b`). -/
def qmul (a b : ℚ) : ℚ := mkRat (a.num * b.num) (a.den * b.den)

/-- Rational division (reducible; equals `a / b`, with `x / 0 = 0`). -/
def qdiv (a b : ℚ) : ℚ := Rat.divInt (a.num * b.den) (a.den * b.num)

/-- Sum of a list of rationals (reducible; equals `List.sum`). -/
def qsum : List ℚ → ℚ
  | [] => 0
  | x :: xs => qadd x (qsum xs)

/-- Absolute value (Rust `f64::abs`; reducible; equals `|a|`). -/
def qabs (a : ℚ) : ℚ := if a < 0 then -a else a

/-- The canonical embedding `ℕ → ℚ` (reducible; equals the cast). -/
def natQ (n : Nat) : ℚ := Rat.ofInt (Int.ofNat n)

/-- The `f64::MAX` as an integer: `(2 − 2⁻⁵²)·2¹⁰²³ = 2¹⁰²⁴ − 2⁹⁷¹`. -/
def f64MAXNat : Nat := 2 ^ 1024 - 2 ^ 971

/-- The exact value of Rust `f64::MAX`. -/
def f64MAX : ℚ := natQ f64MAXNat

/-- The exact value of Rust `f64::MIN`. -/
def f64MIN : ℚ := -natQ f64MAXNat

/-! ## `src/cryptanalysis/mod.rs` : statistical text metrics -/

/-- The `ENGLISH_LETTER_FREQ`: English letter frequencies (A–Z) as percentages. -/
def ENGLISH_LETTER_FREQ : List ℚ := [
  mkRat 8167 1000, mkRat 1492 1000, mkRat 2782 1000, mkRat 4253 1000,
  mkRat 12702 1000, mkRat 2228 1000, mkRat 2015 1000,
  mkRat 6094 1000, mkRat 6966 1000, mkRat 153 1000, mkRat 772 1000,
  mkRat 4025 1000, mkRat 2406 1000, mkRat 6749 1000,
  mkRat 7507 1000, mkRat 1929 1000, mkRat 95 1000, mkRat 5987 1000,
  mkRat 6327 1000, mkRat 9056 1000, mkRat 2758 1000,
  mkRat 978 1000, mkRat 2360 1000, mkRat 150 1000, mkRat 1974 1000, mkRat 74 1000]

/-- The `ENGLISH_BIGRAM_SCORES`: the fixed table of 50 English bigram
log-probabilities from `src/cryptanalysis/mod.rs`. -/
def ENGLISH_BIGRAM_SCORES : List (RString × ℚ) := [
  (str "TH", -2), (str "HE", mkRat (-21) 10), (str "IN", mkRat (-23) 10),
  (str "ER", mkRat (-24) 10), (str "AN", mkRat (-25) 10),
  (str "RE", mkRat (-26) 10), (str "ON", mkRat (-27) 10), (str "AT", mkRat (-28) 10),
  (str "EN", mkRat (-28) 10), (str "ND", mkRat (-29) 10),
  (str "TI", -3), (str "ES", -3), (str "OR", mkRat (-31) 10),
  (str "TE", mkRat (-31) 10), (str "OF", mkRat (-32) 10),
  (str "ED", mkRat (-32) 10), (str "IS", mkRat (-33) 10), (str "IT", mkRat (-33) 10),
  (str "AL", mkRat (-34) 10), (str "AR", mkRat (-34) 10),
  (str "ST", mkRat (-35) 10), (str "TO", mkRat (-35) 10), (str "NT", mkRat (-36) 10),
  (str "NG", mkRat (-36) 10), (str "SE", mkRat (-37) 10),
  (str "HA", mkRat (-37) 10), (str "AS", mkRat (-38) 10), (str "OU", mkRat (-38) 10),
  (str "IO", mkRat (-39) 10), (str "LE", mkRat (-39) 10),
  (str "VE", -4), (str "CO", -4), (str "ME", mkRat (-41) 10),
  (str "DE", mkRat (-41) 10), (str "HI", mkRat (-42) 10),
  (str "RI", mkRat (-42) 10), (str "RO", mkRat (-43) 10), (str "IC", mkRat (-43) 10),
  (str "NE", mkRat (-44) 10), (str "EA", mkRat (-44) 10),
  (str "RA", mkRat (-45) 10), (str "CE", mkRat (-45) 10), (str "LI", mkRat (-46) 10),
  (str "CH", mkRat (-46) 10), (str "LL", mkRat (-47) 10),
  (str "BE", mkRat (-47) 10), (str "MA", mkRat (-48) 10), (str "SI", mkRat (-48) 10),
  (str "OM", mkRat (-49) 10), (str "UR", mkRat (-49) 10)]

/-- Look up a bigram in `ENGLISH_BIGRAM_SCORES`
(`scores.get(&bigram).unwrap_or(&-10.0)`). -/
def bigramScore (a b : Nat) : ℚ :=
  match ENGLISH_BIGRAM_SCORES.find? (fun p => p.1 == [a, b]) with
  | some p => p.2
  | none => -10

/-- The `COMMON_ENGLISH_WORDS`: the common-words set used by `word_score`. -/
def COMMON_ENGLISH_WORDS : List RString :=
  (["the", "be", "to", "of", "and", "a", "in", "that", "have", "i",
    "it", "for", "not", "on", "with", "he", "as", "you", "do", "at",
    "this", "but", "his", "by", "from", "they", "we", "say", "her", "she",
    "or", "an", "will", "my", "one", "all", "would", "there", "their", "what",
    "so", "up", "out", "if", "about", "who", "get", "which", "go", "me",
    "when", "make", "can", "like", "time", "no", "just", "him", "know", "take",
    "people", "into", "year", "your", "good", "some", "could", "them", "see", "other",
    "than", "then", "now", "look", "only", "come", "its", "over", "think", "also",
    "back", "after", "use", "two", "how", "our", "work", "first", "well", "way",
    "even", "new", "want", "because", "any", "these", "give", "day", "most", "us",
    "is", "was", "are", "been", "has", "had", "were", "said", "each", "here",
    "hello", "world", "test", "flag", "password", "secret", "key", "code", "cipher"]).map str

/-- The uppercase ASCII-letters-only view used by every metric:
`text.to_uppercase().chars().filter(|c| c.is_ascii_alphabetic()).collect()`. -/
def lettersOnly (text : RString) : RString :=
  (toUppercase text).filter (fun c => isAsciiAlphabetic c)

/-- The `index_of_coincidence`: `Σ fᵢ(fᵢ−1) / (n(n−1))` over the letters-only view,
`0.0` when fewer than two letters. -/
def index_of_coincidence (text : RString) : ℚ :=
  let t := lettersOnly text
  if t.length < 2 then 0
  else
    let n : ℚ := natQ t.length
    let sum : ℚ := qsum ((List.range 26).map (fun i =>
      let f : ℚ := natQ (t.count (65 + i))
      qmul f (qsub f 1)))
    qdiv sum (qmul n (qsub n 1))

/-- The `chi_squared_score`: χ² of the letters-only view against
`ENGLISH_LETTER_FREQ`; `f64::MAX` on an empty letters-only view. -/
def chi_squared_score (text : RString) : ℚ :=
  let t := lettersOnly text
  if t.isEmpty then f64MAX
  else
    let n : ℚ := natQ t.length
    qsum ((List.range 26).map (fun i =>
      let observed : ℚ := natQ (t.count (65 + i))
      let expected : ℚ := qmul n (qdiv (ENGLISH_LETTER_FREQ.getD i 0) 100)
      if 0 < expected then qdiv (qmul (qsub observed expected) (qsub observed expected)) expected
      else 0))

/-- The `quadgram_score`: the **sum** of `ENGLISH_BIGRAM_SCORES` values over all
adjacent letter pairs of the letters-only view (default `−10.0`), or
`f64::MIN` when there are fewer than 4 letters. -/
def quadgram_score (text : RString) : ℚ :=
  let t := lettersOnly text
  if t.length < 4 then f64MIN
  else qsum ((t.zip t.tail).map (fun w => bigramScore w.1 w.2))

/-- Helper for `word_score`: the maximal runs of ASCII-alphabetic characters
(Rust `split(|c| !c.is_alphabetic())`, whose empty pieces are removed by the
`len ≥ 2` filter anyway). -/
def alphaRunsGo : RString → RString → List RString
  | [], acc => if acc.isEmpty then [] else [acc.reverse]
  | c :: rest, acc =>
    if isAsciiAlphabetic c then alphaRunsGo rest (c :: acc)
    else if acc.isEmpty then alphaRunsGo rest []
    else acc.reverse :: alphaRunsGo rest []

/-- The alphabetic runs of a string. -/
def alphaRuns (s : RString) : List RString := alphaRunsGo s []

/-- The `word_score`: percentage (by length) of the length-≥2 alphabetic runs of
the lowercased text that belong to `COMMON_ENGLISH_WORDS`. -/
def word_score (text : RString) : ℚ :=
  let words := (alphaRuns (toLowercase text)).filter (fun w => 2 ≤ w.length)
  if words.isEmpty then 0
  else
    let recognized : ℚ :=
      natQ (((words.filter (fun w => COMMON_ENGLISH_WORDS.contains w)).map List.length).sum)
    let total : ℚ :=
      natQ ((words.map List.length).sum)
    if total = 0 then 0 else qmul (qdiv recognized total) 100

/-- The `fitness_score`: `−1000·|IC−0.0667| − χ² + 10·word% + bigram_sum`,
`f64::MIN` on the empty string. -/
def fitness_score (text : RString) : ℚ :=
  if text.isEmpty then f64MIN
  else
    let ic := index_of_coincidence text
    let chi_sq := chi_squared_score text
    let word_pct := word_score text
    let bigram := quadgram_score text
    let ic_score := -(qmul (qabs (qsub ic (mkRat 667 10000))) 1000)
    let chi_score := -chi_sq
    let word_bonus := qmul word_pct 10
    qadd (qadd (qadd ic_score chi_score) word_bonus) bigram

/-- The `is_likely_english`: false below 10 bytes, else at least 2 of the 4
conditions `{IC ∈ (0.04, 0.09), χ² < 100, word% > 15, bigram_sum > −300}`. -/
def is_likely_english (text : RString) : Bool :=
  if utf8Length text < 10 then false
  else
    let ic := index_of_coincidence text
    let chi_sq := chi_squared_score text
    let word_pct := word_score text
    let bigram := quadgram_score text
    let ic_ok := decide (mkRat 1 25 < ic) && decide (ic < mkRat 9 100)
    let chi_ok := decide (chi_sq < 100)
    let words_ok := decide (15 < word_pct)
    let bigram_ok := decide (-300 < bigram)
    2 ≤ ic_ok.toNat + chi_ok.toNat + words_ok.toNat + bigram_ok.toNat

/-! ## Configuration, check results, external-collaborator oracles -/

/-- Gibberish-detector sensitivity (the `gibberish_or_not` crate's enum). -/
inductive Sensitivity where
  | Low | Medium | High
deriving DecidableEq, Repr

/-- The configuration options consulted by the embedded code
(`src/config`): a faithful fragment of the Rust `Config`. -/
structure Config where
  timeout : Nat := 5
  human_checker_on : Bool := false
  top_results : Bool := false
  enhanced_detection : Bool := false
  regex : Option RString := none
  wordlist : Option (List RString) := none
deriving Repr, DecidableEq

/-- The `CheckResult` (modelled from the spec: `checker_result.rs` is not under
`src/`; fields as constructed by `english.rs` and read by `athena.rs` and
`lib.rs`). -/
structure CheckResult where
  is_identified : Bool
  text : RString
  checker_name : RString
  checker_description : RString
  description : RString
  link : RString
deriving Repr, DecidableEq

/-- Oracles for the external collaborators the checkers delegate to: the
`lemmeknow` identifier, the password checker, the user regex and wordlist
checkers (whose sources are not under `src/`), the `gibberish_or_not`
detector (`is_gibberish`), and the human-confirmation prompt.  Each is an
arbitrary function of the data the real collaborator receives. -/
structure Oracles where
  lemmeknow : RString → Config → Bool
  passwordCheck : RString → Config → Bool
  regexCheck : RString → Config → Bool
  wordlistCheck : RString → Config → Bool
  isGibberish : RString → Sensitivity → Bool
  human : RString → Bool

/-- The `human_checker` (modelled from the spec: `human_checker.rs` is not under
`src/`; "Called only when `human_checker_on=true`", and its boolean reply
replaces `identified`; with the prompt off it leaves a positive untouched). -/
def human_checker (o : Oracles) (res : CheckResult) (cfg : Config) : Bool :=
  if cfg.human_checker_on then o.human res.text else true

/-! ## `src/checkers/english.rs` -/

/-- The `normalise_string`: ASCII-lowercase then drop ASCII punctuation. -/
def normalise_string (input : RString) : RString :=
  (toLowercase input).filter (fun c => ¬ isAsciiPunctuation c)

/-- The `EnglishChecker::check`, with the `gibberish_or_not` call abstracted by
`o.isGibberish`.  `sens` is the checker's configured sensitivity. -/
def english_check (o : Oracles) (sens : Sensitivity) (text : RString) (cfg : Config) :
    CheckResult :=
  let normalized := normalise_string text
  let is_gibberish_result :=
    if cfg.enhanced_detection then !(o.isGibberish normalized .High)
    else !(o.isGibberish normalized sens)
  let cryptanalysis_check :=
    if 30 ≤ utf8Length normalized then
      let fitness := fitness_score normalized
      let word_pct := word_score normalized
      let ic := index_of_coincidence normalized
      let has_good_ic := decide (mkRat 11 200 < ic) && decide (ic < mkRat 3 40)
      let has_words := decide ((40 : ℚ) < word_pct)
      let has_decent_fitness := decide (-150 < fitness)
      has_good_ic && has_words && has_decent_fitness
    else false
  let is_identified := is_gibberish_result || cryptanalysis_check
  let result : CheckResult :=
    { is_identified := is_identified
      text := text
      checker_name := str "English Checker"
      checker_description :=
        str "Uses gibberish detection to check if text is meaningful English"
      description := str "Words"
      link := str "https://crates.io/crates/gibberish-or-not" }
  if utf8Length normalized < 2 then { result with is_identified := false } else result

/-! ## `src/checkers/athena.rs` -/

/-- The `CheckResult::new(checker)` (modelled from the spec: a fresh negative
result carrying the checker's name/description). -/
def CheckResult.fresh (name description : RString) : CheckResult :=
  { is_identified := false, text := [], checker_name := name
    checker_description := description, description := [], link := [] }

/-- One positive branch of `Athena::check`: wrap a sub-checker's positive
result, run the human checker, and adopt its verdict. -/
def athenaWrap (o : Oracles) (cfg : Config) (name description : RString)
    (sub : CheckResult) : CheckResult :=
  let base := CheckResult.fresh name description
  let human_result := human_checker o sub cfg
  { base with is_identified := human_result, text := sub.text
              description := sub.description }

/-- A positive result of an external boolean sub-checker, as handed to
`athenaWrap` (the external checkers' result fields beyond `is_identified`
and `text` are not observable in any claim). -/
def oracleResult (name : RString) (text : RString) (b : Bool) : CheckResult :=
  { is_identified := b, text := text, checker_name := name
    checker_description := [], description := [], link := [] }

/-- The `Athena::check`: regex-only mode when `config.regex` is set, otherwise
wordlist (if configured) → lemmeknow → password → English, returning the
first positive (run through the human checker); negative fallthrough. -/
def athena_check (o : Oracles) (sens : Sensitivity) (text : RString) (cfg : Config) :
    CheckResult :=
  let athenaFresh := CheckResult.fresh (str "Athena Checker") (str "Runs all available checkers")
  if cfg.regex.isSome then
    let regex_result := oracleResult (str "Regex Checker") text (o.regexCheck text cfg)
    if regex_result.is_identified then
      athenaWrap o cfg (str "Regex Checker") [] regex_result
    else athenaFresh
  else
    let wordlistFired :=
      cfg.wordlist.isSome && o.wordlistCheck text cfg
    if wordlistFired then
      athenaWrap o cfg (str "Wordlist Checker") []
        (oracleResult (str "Wordlist Checker") text true)
    else
      let lemmeknow_result := oracleResult (str "LemmeKnow Checker") text (o.lemmeknow text cfg)
      if lemmeknow_result.is_identified then
        athenaWrap o cfg (str "LemmeKnow Checker") [] lemmeknow_result
      else
        let password_result := oracleResult (str "Password Checker") text (o.passwordCheck text cfg)
        if password_result.is_identified then
          athenaWrap o cfg (str "Password Checker") [] password_result
        else
          let english_result := english_check o sens text cfg
          if english_result.is_identified then
            athenaWrap o cfg (str "English Checker")
              (str "Uses gibberish detection to check if text is meaningful English")
              english_result
          else athenaFresh

/-- The `CheckerTypes` value handed to decoders: the Athena checker at a
given sensitivity (decoders may lower it via `with_sensitivity`). -/
structure CheckerTypes where
  o : Oracles
  sens : Sensitivity

/-- The `CheckerTypes::check(text, config)`. -/
def CheckerTypes.check (ct : CheckerTypes) (text : RString) (cfg : Config) : CheckResult :=
  athena_check ct.o ct.sens text cfg

/-- The `CheckerTypes::with_sensitivity`. -/
def CheckerTypes.with_sensitivity (ct : CheckerTypes) (s : Sensitivity) : CheckerTypes :=
  { ct with sens := s }

/-! ## Hash functions (the `md5`, `sha1`, `sha2` crates used by
`hash_crack_decoder.rs`), implemented over byte lists with `Nat` words
reduced mod 2³². -/

/-- Truncate to a 32-bit word. -/
def w32 (n : Nat) : Nat := n % 4294967296

/-- Left rotation of a 32-bit word (`x` must already be < 2³²). -/
def rotl32 (x n : Nat) : Nat := (x * 2 ^ n) % 4294967296 + x / 2 ^ (32 - n)

/-- Right rotation of a 32-bit word. -/
def rotr32 (x n : Nat) : Nat := x / 2 ^ n + (x % 2 ^ n) * 2 ^ (32 - n)

/-- Bitwise complement of a 32-bit word. -/
def not32 (x : Nat) : Nat := x ^^^ 4294967295

/-- Split a byte list into 64-byte chunks (structural recursion on a length
fuel, so that the kernel can evaluate it; each step consumes at least one
byte, so `l.length` steps always suffice). -/
def chunks64Go : Nat → List Nat → List (List Nat)
  | 0, _ => []
  | _, [] => []
  | fuel + 1, b :: rest => (b :: rest).take 64 :: chunks64Go fuel ((b :: rest).drop 64)

/-- Split a byte list into 64-byte chunks. -/
def chunks64 (l : List Nat) : List (List Nat) := chunks64Go l.length l

/-- Little-endian 64-bit encoding of a number. -/
def le64 (n : Nat) : List Nat := (List.range 8).map (fun k => n / 2 ^ (8 * k) % 256)

/-- Big-endian 64-bit encoding of a number. -/
def be64 (n : Nat) : List Nat := ((List.range 8).map (fun k => n / 2 ^ (8 * k) % 256)).reverse

/-- Merkle–Damgård padding: `128`, zeros to 56 mod 64, then the 8-byte bit
length (little-endian for MD5, big-endian for SHA-1/SHA-256). -/
def padMsg (littleEndian : Bool) (msg : List Nat) : List Nat :=
  let padLen := (55 + 64 - msg.length % 64) % 64 + 1
  msg ++ (128 :: List.replicate (padLen - 1) 0) ++
    (if littleEndian then le64 (8 * msg.length) else be64 (8 * msg.length))

/-- Little-endian 32-bit word `j` of a 64-byte chunk. -/
def leWord (chunk : List Nat) (j : Nat) : Nat :=
  chunk.getD (4 * j) 0 + 256 * chunk.getD (4 * j + 1) 0 +
    65536 * chunk.getD (4 * j + 2) 0 + 16777216 * chunk.getD (4 * j + 3) 0

/-- Big-endian 32-bit word `j` of a 64-byte chunk. -/
def beWord (chunk : List Nat) (j : Nat) : Nat :=
  chunk.getD (4 * j + 3) 0 + 256 * chunk.getD (4 * j + 2) 0 +
    65536 * chunk.getD (4 * j + 1) 0 + 16777216 * chunk.getD (4 * j) 0

/-- Little-endian bytes of a 32-bit word. -/
def leBytes (w : Nat) : List Nat := [w % 256, w / 256 % 256, w / 65536 % 256, w / 16777216 % 256]

/-- Big-endian bytes of a 32-bit word. -/
def beBytes (w : Nat) : List Nat := [w / 16777216 % 256, w / 65536 % 256, w / 256 % 256, w % 256]

/-- Lower-case hex digit for a nibble. -/
def hexDigitChar (n : Nat) : Nat := if n < 10 then 48 + n else 87 + n

/-- Lower-case hex string of a byte list (`format!("{:x}", …)` / `hex::encode`). -/
def bytesToHex (bs : List Nat) : RString :=
  bs.flatMap (fun b => [hexDigitChar (b / 16), hexDigitChar (b % 16)])

/-- The 64 MD5 sine-derived constants. -/
def md5K : List Nat := [
  3614090360, 3905402710, 606105819, 3250441966,
  4118548399, 1200080426, 2821735955, 4249261313,
  1770035416, 2336552879, 4294925233, 2304563134,
  1804603682, 4254626195, 2792965006, 1236535329,
  4129170786, 3225465664, 643717713, 3921069994,
  3593408605, 38016083, 3634488961, 3889429448,
  568446438, 3275163606, 4107603335, 1163531501,
  2850285829, 4243563512, 1735328473, 2368359562,
  4294588738, 2272392833, 1839030562, 4259657740,
  2763975236, 1272893353, 4139469664, 3200236656,
  681279174, 3936430074, 3572445317, 76029189,
  3654602809, 3873151461, 530742520, 3299628645,
  4096336452, 1126891415, 2878612391, 4237533241,
  1700485571, 2399980690, 4293915773, 2240044497,
  1873313359, 4264355552, 2734768916, 1309151649,
  4149444226, 3174756917, 718787259, 3951481745]

/-- The MD5 per-round rotation amounts. -/
def md5S : List Nat := [
  7, 12, 17, 22, 7, 12, 17, 22, 7, 12, 17, 22, 7, 12, 17, 22,
  5, 9, 14, 20, 5, 9, 14, 20, 5, 9, 14, 20, 5, 9, 14, 20,
  4, 11, 16, 23, 4, 11, 16, 23, 4, 11, 16, 23, 4, 11, 16, 23,
  6, 10, 15, 21, 6, 10, 15, 21, 6, 10, 15, 21, 6, 10, 15, 21]

/-- One MD5 chunk compression. -/
def md5Chunk (st : Nat × Nat × Nat × Nat) (chunk : List Nat) : Nat × Nat × Nat × Nat :=
  let (a0, b0, c0, d0) := st
  let step := fun (s : Nat × Nat × Nat × Nat) (i : Nat) =>
    let (a, b, c, d) := s
    let (f, g) :=
      if i < 16 then ((b &&& c) ||| (not32 b &&& d), i)
      else if i < 32 then ((d &&& b) ||| (not32 d &&& c), (5 * i + 1) % 16)
      else if i < 48 then (b ^^^ c ^^^ d, (3 * i + 5) % 16)
      else (c ^^^ (b ||| not32 d), 7 * i % 16)
    let f' := w32 (f + a + md5K.getD i 0 + leWord chunk g)
    (d, w32 (b + rotl32 f' (md5S.getD i 0)), b, c)
  let (a, b, c, d) := (List.range 64).foldl step (a0, b0, c0, d0)
  (w32 (a0 + a), w32 (b0 + b), w32 (c0 + c), w32 (d0 + d))

/-- MD5 digest of a byte list. -/
def md5 (msg : List Nat) : List Nat :=
  let init := (1732584193, 4023233417, 2562383102, 271733878)
  let (a, b, c, d) := (chunks64 (padMsg true msg)).foldl md5Chunk init
  leBytes a ++ leBytes b ++ leBytes c ++ leBytes d

/-- Extend the SHA-1 message schedule from 16 to 80 words. -/
def sha1Extend (w : List Nat) : Nat → List Nat
  | 0 => w
  | n + 1 =>
    let L := w.length
    sha1Extend
      (w ++ [rotl32 (w.getD (L - 3) 0 ^^^ w.getD (L - 8) 0 ^^^
                     w.getD (L - 14) 0 ^^^ w.getD (L - 16) 0) 1]) n

/-- One SHA-1 chunk compression. -/
def sha1Chunk (st : Nat × Nat × Nat × Nat × Nat) (chunk : List Nat) :
    Nat × Nat × Nat × Nat × Nat :=
  let (h0, h1, h2, h3, h4) := st
  let w := sha1Extend ((List.range 16).map (beWord chunk)) 64
  let step := fun (s : Nat × Nat × Nat × Nat × Nat) (i : Nat) =>
    let (a, b, c, d, e) := s
    let (f, k) :=
      if i < 20 then ((b &&& c) ||| (not32 b &&& d), 1518500249)
      else if i < 40 then (b ^^^ c ^^^ d, 1859775393)
      else if i < 60 then ((b &&& c) ||| (b &&& d) ||| (c &&& d), 2400959708)
      else (b ^^^ c ^^^ d, 3395469782)
    let temp := w32 (rotl32 a 5 + f + e + k + w.getD i 0)
    (temp, a, rotl32 b 30, c, d)
  let (a, b, c, d, e) := (List.range 80).foldl step (h0, h1, h2, h3, h4)
  (w32 (h0 + a), w32 (h1 + b), w32 (h2 + c), w32 (h3 + d), w32 (h4 + e))

/-- SHA-1 digest of a byte list. -/
def sha1 (msg : List Nat) : List Nat :=
  let init := (1732584193, 4023233417, 2562383102, 271733878, 3285377520)
  let (a, b, c, d, e) := (chunks64 (padMsg false msg)).foldl sha1Chunk init
  beBytes a ++ beBytes b ++ beBytes c ++ beBytes d ++ beBytes e

/-- The 64 SHA-256 round constants. -/
def sha256K : List Nat := [
  1116352408, 1899447441, 3049323471, 3921009573, 961987163, 1508970993, 2453635748, 2870763221,
  3624381080, 310598401, 607225278, 1426881987, 1925078388, 2162078206, 2614888103, 3248222580,
  3835390401, 4022224774, 264347078, 604807628, 770255983, 1249150122, 1555081692, 1996064986,
  2554220882, 2821834349, 2952996808, 3210313671, 3336571891, 3584528711, 113926993, 338241895,
  666307205, 773529912, 1294757372, 1396182291, 1695183700, 1986661051, 2177026350, 2456956037,
  2730485921, 2820302411, 3259730800, 3345764771, 3516065817, 3600352804, 4094571909, 275423344,
  430227734, 506948616, 659060556, 883997877, 958139571, 1322822218, 1537002063, 1747873779,
  1955562222, 2024104815, 2227730452, 2361852424, 2428436474, 2756734187, 3204031479, 3329325298]

/-- Extend the SHA-256 message schedule from 16 to 64 words. -/
def sha256Extend (w : List Nat) : Nat → List Nat
  | 0 => w
  | n + 1 =>
    let L := w.length
    let s0 := rotr32 (w.getD (L - 15) 0) 7 ^^^ rotr32 (w.getD (L - 15) 0) 18 ^^^
      w.getD (L - 15) 0 / 2 ^ 3
    let s1 := rotr32 (w.getD (L - 2) 0) 17 ^^^ rotr32 (w.getD (L - 2) 0) 19 ^^^
      w.getD (L - 2) 0 / 2 ^ 10
    sha256Extend (w ++ [w32 (w.getD (L - 16) 0 + s0 + w.getD (L - 7) 0 + s1)]) n

/-- The SHA-256 running state: eight 32-bit words. -/
structure Sha256State where
  a : Nat
  b : Nat
  c : Nat
  d : Nat
  e : Nat
  f : Nat
  g : Nat
  h : Nat

/-- One SHA-256 chunk compression. -/
def sha256Chunk (st : Sha256State) (chunk : List Nat) : Sha256State :=
  let w := sha256Extend ((List.range 16).map (beWord chunk)) 48
  let step := fun (s : Sha256State) (i : Nat) =>
    let S1 := rotr32 s.e 6 ^^^ rotr32 s.e 11 ^^^ rotr32 s.e 25
    let ch := (s.e &&& s.f) ^^^ (not32 s.e &&& s.g)
    let temp1 := w32 (s.h + S1 + ch + sha256K.getD i 0 + w.getD i 0)
    let S0 := rotr32 s.a 2 ^^^ rotr32 s.a 13 ^^^ rotr32 s.a 22
    let maj := (s.a &&& s.b) ^^^ (s.a &&& s.c) ^^^ (s.b &&& s.c)
    let temp2 := w32 (S0 + maj)
    { a := w32 (temp1 + temp2), b := s.a, c := s.b, d := s.c
      e := w32 (s.d + temp1), f := s.e, g := s.f, h := s.g }
  let r := (List.range 64).foldl step st
  { a := w32 (st.a + r.a), b := w32 (st.b + r.b), c := w32 (st.c + r.c), d := w32 (st.d + r.d)
    e := w32 (st.e + r.e), f := w32 (st.f + r.f), g := w32 (st.g + r.g), h := w32 (st.h + r.h) }

/-- SHA-256 digest of a byte list. -/
def sha256 (msg : List Nat) : List Nat :=
  let init : Sha256State :=
    { a := 1779033703, b := 3144134277, c := 1013904242, d := 2773480762
      e := 1359893119, f := 2600822924, g := 528734635, h := 1541459225 }
  let r := (chunks64 (padMsg false msg)).foldl sha256Chunk init
  beBytes r.a ++ beBytes r.b ++ beBytes r.c ++ beBytes r.d ++
    beBytes r.e ++ beBytes r.f ++ beBytes r.g ++ beBytes r.h

/-! ## Decoder contract (`src/decoders/interface.rs`, `crack_results.rs`) -/

/-- Decoder descriptor: the fields of the Rust `Decoder<T>` structs that the
claims observe (name and tags). -/
structure DecoderInfo where
  name : RString
  tags : List RString
deriving Repr, DecidableEq

/-- The `CrackResult` (modelled from the spec: `crack_results.rs` is not under
`src/`; per §3 of the spec a fresh result has `success=false`, an empty
candidate list and no key, and `lib.rs`/decoder code sets
`unencrypted_text`, `key`, `checker_name` afterwards). -/
structure CrackResult where
  decoder : RString
  encrypted_text : RString
  unencrypted_text : Option (List RString) := none
  key : Option RString := none
  success : Bool := false
  checker_name : RString := []
  checker_description : RString := []
deriving Repr, DecidableEq

/-- The `CrackResult::new(decoder, text)` (modelled from the spec, see
`CrackResult`). -/
def CrackResult.new (d : DecoderInfo) (text : RString) : CrackResult :=
  { decoder := d.name, encrypted_text := text }

/-- The `CrackResult::update_checker` (modelled from the spec: records the firing
checker's name and description and sets `success` from `is_identified`). -/
def CrackResult.update_checker (r : CrackResult) (cr : CheckResult) : CrackResult :=
  { r with success := cr.is_identified
           checker_name := cr.checker_name
           checker_description := cr.checker_description }

/-- Modelled from the spec: `check_string_success` lives in the missing
`decoders/interface.rs`; per §4.C a candidate passes the "not-trivial"
filter when it is non-empty and its form differs from the input. -/
def check_string_success (decoded original : RString) : Bool :=
  ¬ decoded.isEmpty && decoded ≠ original

/-! ## `src/decoders/rot5_decoder.rs` and `rot18_decoder.rs` -/

/-- The ROT5 map on one code point: digits rotate by 5 mod 10. -/
def rot5Char (c : Nat) : Nat :=
  if isAsciiDigit c then (c - 48 + 5) % 10 + 48 else c

/-- The `rot5`: apply ROT5 to every character. -/
def rot5 (text : RString) : RString := text.map rot5Char

/-- The ROT18 map on one code point: letters rotate by 13 mod 26 (per case),
digits by 5 mod 10. -/
def rot18Char (c : Nat) : Nat :=
  if isAsciiAlphabetic c then
    let base := if isAsciiLowercase c then 97 else 65
    (c - base + 13) % 26 + base
  else if isAsciiDigit c then (c - 48 + 5) % 10 + 48
  else c

/-- The `rot18`: apply ROT18 to every character. -/
def rot18 (text : RString) : RString := text.map rot18Char

/-- The ROT5 decoder's descriptor. -/
def rot5Info : DecoderInfo :=
  { name := str "ROT5", tags := [str "rot5", str "rot", str "classical", str "cipher", str "reciprocal"] }

/-- The `Decoder::<Rot5Decoder>::crack`. -/
def rot5_crack (text : RString) (checker : CheckerTypes) (cfg : Config) : CrackResult :=
  let results := CrackResult.new rot5Info text
  if ¬ text.any (fun c => isAsciiDigit c) then results
  else
    let decoded_text := rot5 text
    if ¬ check_string_success decoded_text text then results
    else
      let checker_result := checker.check decoded_text cfg
      CrackResult.update_checker { results with unencrypted_text := some [decoded_text] }
        checker_result

/-- The ROT18 decoder's descriptor. -/
def rot18Info : DecoderInfo :=
  { name := str "ROT18", tags := [str "rot18", str "rot", str "classical", str "cipher", str "reciprocal"] }

/-- The `Decoder::<Rot18Decoder>::crack`. -/
def rot18_crack (text : RString) (checker : CheckerTypes) (cfg : Config) : CrackResult :=
  let results := CrackResult.new rot18Info text
  if ¬ text.any (fun c => isAsciiAlphanumeric c) then results
  else if ¬ (text.any (fun c => isAsciiAlphabetic c)) ||
          ¬ (text.any (fun c => isAsciiDigit c)) then results
  else
    let decoded_text := rot18 text
    if ¬ check_string_success decoded_text text then results
    else
      let checker_result := checker.check decoded_text cfg
      CrackResult.update_checker { results with unencrypted_text := some [decoded_text] }
        checker_result

/-! ## `src/decoders/xor_decoder.rs` -/

/-- The XOR decoder's descriptor. -/
def xorInfo : DecoderInfo :=
  { name := str "XOR", tags := [str "xor", str "decryption", str "classic", str "brute-force"] }

/-- The `format!("0x{:02x}", key)` for a single-byte key. -/
def xorKeyString (key : Nat) : RString :=
  [48, 120, hexDigitChar (key / 16), hexDigitChar (key % 16)]

/-- The XOR brute-force loop over the remaining keys: accumulate every
valid-UTF-8 decoding; on the first checker-positive candidate return a
successful result with the key; otherwise return the accumulated list. -/
def xorCrackGo (ct : CheckerTypes) (cfg : Config) (text : RString) (results : CrackResult)
    (acc : List RString) : List Nat → CrackResult
  | [] =>
    if acc.isEmpty then results
    else { results with unencrypted_text := some acc }
  | key :: keys =>
    match utf8Decode ((utf8Encode text).map (fun b => b ^^^ key)) with
    | none => xorCrackGo ct cfg text results acc keys
    | some s =>
      let acc' := acc ++ [s]
      if ¬ check_string_success s text then xorCrackGo ct cfg text results acc' keys
      else
        let checker_result := ct.check s cfg
        if checker_result.is_identified then
          CrackResult.update_checker
            { results with unencrypted_text := some [s], key := some (xorKeyString key) }
            checker_result
        else xorCrackGo ct cfg text results acc' keys

/-- The `Decoder::<XorDecoder>::crack`: brute-force keys 1..=255 over the UTF-8
bytes, checking with Low sensitivity. -/
def xor_crack (text : RString) (checker : CheckerTypes) (cfg : Config) : CrackResult :=
  let results := CrackResult.new xorInfo text
  let checker_with_sensitivity := checker.with_sensitivity .Low
  xorCrackGo checker_with_sensitivity cfg text results [] (List.range' 1 255)

/-! ## `src/decoders/hash_crack_decoder.rs` -/

/-- The HashCrack decoder's descriptor. -/
def hashCrackInfo : DecoderInfo :=
  { name := str "HashCrack"
    tags := [str "hash", str "md5", str "sha1", str "sha256", str "cracker",
             str "dictionary", str "decoder"] }

/-- The built-in common-passwords list of `hash_crack_decoder.rs`. -/
def common_passwords : List RString :=
  (["password", "123456", "12345678", "123456789", "12345", "1234567", "qwerty",
    "111111", "123123", "password123", "admin", "welcome", "google", "unknown",
    "123321", "aaaaaa", "1234567890", "monkey", "letmein", "sunshine", "login",
    "master", "football", "baseball", "princess", "dragon", "shadow", "pass",
    "computer", "system", "network", "access", "hunter2", "charlie", "mustang",
    "superman", "batman", "iloveyou", "nothing", "secret", "number1", "server"]).map str

/-- The hash of a password under the detected hash type, lower-case hex. -/
def hashOf (hash_type : Nat) (password : RString) : RString :=
  if hash_type = 32 then bytesToHex (md5 (utf8Encode password))
  else if hash_type = 40 then bytesToHex (sha1 (utf8Encode password))
  else bytesToHex (sha256 (utf8Encode password))

/-- The password-dictionary loop of `HashCrack::crack`: on the first matching
password, force the checker result to identified and return it as the single
candidate. -/
def hashCrackGo (ct : CheckerTypes) (results : CrackResult) (text : RString)
    (hash_type : Nat) : List RString → CrackResult
  | [] => results
  | password :: rest =>
    if hashOf hash_type password == text then
      if ¬ check_string_success password text then hashCrackGo ct results text hash_type rest
      else
        let checker_result := ct.check password {}
        let checker_result := { checker_result with is_identified := true }
        CrackResult.update_checker { results with unencrypted_text := some [password] }
          checker_result
    else hashCrackGo ct results text hash_type rest

/-- The `Decoder::<HashCrackDecoder>::crack` (two-argument revision: the
checker's `check(password)` call is modelled with a default `Config`).
Trim + lowercase, require hex of length 32/40/64, then dictionary attack. -/
def hash_crack (textIn : RString) (checker : CheckerTypes) : CrackResult :=
  let results := CrackResult.new hashCrackInfo textIn
  let text := toLowercase (trim textIn)
  let len := utf8Length text
  if ¬ (len = 32 || len = 40 || len = 64) then results
  else if ¬ text.all (fun c => isAsciiHexdigit c) then results
  else hashCrackGo checker results text len common_passwords

/-! ## `src/filtration_system/mod.rs` and the decoder registry -/

/-- A decoder plugin: its descriptor together with its
`crack(text, checker, config)` entry point. -/
structure DecoderPlugin where
  info : DecoderInfo
  crack : RString → CheckerTypes → Config → CrackResult

/-- The ROT5 plugin. -/
def rot5Plugin : DecoderPlugin := { info := rot5Info, crack := rot5_crack }

/-- The ROT18 plugin. -/
def rot18Plugin : DecoderPlugin := { info := rot18Info, crack := rot18_crack }

/-- The XOR plugin. -/
def xorPlugin : DecoderPlugin := { info := xorInfo, crack := xor_crack }

/-- The HashCrack plugin (its `crack` ignores the config: two-argument
revision). -/
def hashCrackPlugin : DecoderPlugin :=
  { info := hashCrackInfo, crack := fun t ct _ => hash_crack t ct }

/-- The decoder registry: the embedded subset of `DECODER_MAP`
(`decoders/mod.rs` is not under `src/`; the registry is the static list of
all decoders, of which we embed the four the claims are about). -/
def DECODER_REGISTRY : List DecoderPlugin :=
  [hashCrackPlugin, xorPlugin, rot5Plugin, rot18Plugin]

/-- The `DecoderResult` from `src/lib.rs`: candidate texts plus the chain of
`CrackResult`s; also the candidate-node type of the search. -/
structure DecoderResult where
  text : List RString
  path : List CrackResult
deriving Repr, DecidableEq

/-- The set of decoder names already applied along a node's path. -/
def DecoderResult.applied (node : DecoderResult) : List RString :=
  node.path.map (fun r => r.decoder)

/-- The `DecoderFilter`: include- and exclude-tag sets. -/
structure DecoderFilter where
  include_tags : List RString := []
  exclude_tags : List RString := []

/-- The `DecoderFilter::matches`: with a non-empty include set at least one tag
must match; with a non-empty exclude set no tag may match. -/
def DecoderFilter.matches (f : DecoderFilter) (info : DecoderInfo) : Bool :=
  let tags := info.tags
  if !f.include_tags.isEmpty &&
      !f.include_tags.any (fun include_tag => tags.any (fun tag => tag == include_tag)) then
    false
  else if !f.exclude_tags.isEmpty &&
      f.exclude_tags.any (fun exclude_tag => tags.any (fun tag => tag == exclude_tag)) then
    false
  else true

/-- The `filter_decoders_by_tags(_text_struct, filter)`: filters the registry by
tags.  Exactly as in the source, the node argument is ignored
(`_text_struct`). -/
def filter_decoders_by_tags (_text_struct : DecoderResult) (filter : DecoderFilter) :
    List DecoderPlugin :=
  DECODER_REGISTRY.filter (fun decoder => filter.matches decoder.info)

/-- The `get_decoder_tagged_decoders`. -/
def get_decoder_tagged_decoders (text_struct : DecoderResult) : List DecoderPlugin :=
  filter_decoders_by_tags text_struct { include_tags := [str "decoder"] }

/-- The `get_non_decoder_tagged_decoders`. -/
def get_non_decoder_tagged_decoders (text_struct : DecoderResult) : List DecoderPlugin :=
  filter_decoders_by_tags text_struct { exclude_tags := [str "decoder"] }

/-- The `MyResults`: a successful short-circuit or all the continue results. -/
inductive MyResults where
  | Break (res : CrackResult)
  | Continue (results : List CrackResult)

/-- The `Decoders::run`: run each decoder on the same text; short-circuit on the
first `success` (a deterministic, in-registry-order stand-in for the
parallel fan-out, whose winning order the spec leaves unspecified). -/
def runDecoders (text : RString) (ct : CheckerTypes) (cfg : Config) :
    List DecoderPlugin → List CrackResult → MyResults
  | [], acc => .Continue acc.reverse
  | d :: rest, acc =>
    let results := d.crack text ct cfg
    if results.success then .Break results
    else runDecoders text ct cfg rest (results :: acc)

/-! ## Search engine (modelled from the spec: `searchers/` is not under
`src/`; §4.G's BFS with string-level deduplication, the empty-candidate
filter, and the decoder-tagged-first ordering of §4.E, with the timeout
modelled as layer fuel). -/

/-- The successful chain for a `Break` at a node. -/
def breakResult (node : DecoderResult) (res : CrackResult) : DecoderResult :=
  { text := res.unencrypted_text.getD [], path := node.path ++ [res] }

/-- Process one node: decoder-tagged dispatch first, then the cipher
decoders; `inl` is a successful chain, `inr` the continue results. -/
def stepNode (ct : CheckerTypes) (cfg : Config) (node : DecoderResult) :
    Sum DecoderResult (List CrackResult) :=
  let text := node.text.headD []
  match runDecoders text ct cfg (get_decoder_tagged_decoders node) [] with
  | .Break res => .inl (breakResult node res)
  | .Continue rs1 =>
    match runDecoders text ct cfg (get_non_decoder_tagged_decoders node) [] with
    | .Break res => .inl (breakResult node res)
    | .Continue rs2 => .inr (rs1 ++ rs2)

/-- Turn one continue result's candidates into child nodes, skipping empty
and already-seen strings (spec §4.G step 5). -/
def childNodes (path : List CrackResult) (r : CrackResult) :
    List RString → List RString → List DecoderResult × List RString
  | [], seen => ([], seen)
  | c :: cs, seen =>
    if ¬ seen.contains c && ¬ c.isEmpty then
      let (ns, seen') := childNodes path r cs (c :: seen)
      ({ text := [c], path := path ++ [r] } :: ns, seen')
    else childNodes path r cs seen

/-- Children of a node for all its continue results. -/
def childrenOf (node : DecoderResult) (seen : List RString) :
    List CrackResult → List DecoderResult × List RString
  | [] => ([], seen)
  | r :: rest =>
    let (ns, seen') := childNodes node.path r (r.unencrypted_text.getD []) seen
    let (ns2, seen'') := childrenOf node seen' rest
    (ns ++ ns2, seen'')

/-- Process one BFS layer: a success short-circuits; otherwise collect the
next frontier. -/
def searchLayer (ct : CheckerTypes) (cfg : Config) :
    List DecoderResult → List RString → Sum DecoderResult (List DecoderResult × List RString)
  | [], seen => .inr ([], seen)
  | node :: rest, seen =>
    match stepNode ct cfg node with
    | .inl success => .inl success
    | .inr rs =>
      let (children, seen') := childrenOf node seen rs
      match searchLayer ct cfg rest seen' with
      | .inl s => .inl s
      | .inr (nodes, seen'') => .inr (children ++ nodes, seen'')

/-- The BFS loop: stops on success, an empty frontier, or exhausted fuel
(the timeout). -/
def search_loop (ct : CheckerTypes) (cfg : Config) :
    Nat → List DecoderResult → List RString → Option DecoderResult
  | 0, _, _ => none
  | fuel + 1, frontier, seen =>
    if frontier.isEmpty then none
    else
      match searchLayer ct cfg frontier seen with
      | .inl s => some s
      | .inr (next, seen') => search_loop ct cfg fuel next seen'

/-- The `search_for_plaintext`: seed the frontier with the input (Athena at its
default Low sensitivity). -/
def search_for_plaintext (o : Oracles) (fuel : Nat) (text : RString) (cfg : Config) :
    Option DecoderResult :=
  let ct : CheckerTypes := { o := o, sens := .Low }
  search_loop ct cfg fuel [{ text := [text], path := [] }] [text]

/-! ## `src/lib.rs` : `perform_cracking` -/

/-- The `Decoder::default()`'s descriptor.  Modelled from the spec (the default
decoder lives in the missing `decoders/interface.rs`); its name is pinned to
`"Default decoder"` by the in-repo test
`test_perform_cracking_successfully_inputted_plaintext` (`src/lib.rs`),
which asserts `path[0].decoder == "Default decoder"`. -/
def defaultDecoderInfo : DecoderInfo := { name := str "Default decoder", tags := [] }

/-- The config normalization at the top of `perform_cracking`: top-results
mode forces the human checker off. -/
def normalize_config (config : Config) : Config :=
  if config.top_results then { config with human_checker_on := false } else config

/-- The `WaitAthena::check` (modelled from the spec: `wait_athena.rs` is not
under `src/`; §4.B: identical to Athena except every positive is appended to
the plaintext tally — not observable here — and it always reports
negative). -/
def wait_athena_check (o : Oracles) (sens : Sensitivity) (text : RString) (cfg : Config) :
    CheckResult :=
  let r := athena_check o sens text cfg
  { r with is_identified := false }

/-- The `check_if_input_text_is_plaintext`: WaitAthena in top-results mode, the
Athena façade otherwise; exactly as in `lib.rs` the checker is invoked with
`Config::default()`, not the caller's config. -/
def check_if_input_text_is_plaintext (o : Oracles) (text : RString) (config : Config) :
    CheckResult :=
  if config.top_results then wait_athena_check o .Low text {}
  else athena_check o .Low text {}

/-- The `perform_cracking`: normalize the config, consult the cache (modelled as
a lookup oracle; the write-through and its errors do not affect the returned
value), return a one-element `Default decoder` chain when the input is
already plaintext, otherwise search. -/
def perform_cracking (o : Oracles) (cache : RString → Option DecoderResult) (fuel : Nat)
    (text : RString) (config : Config) : Option DecoderResult :=
  let config := normalize_config config
  match cache text with
  | some row => some row
  | none =>
    let initial_check_for_plaintext := check_if_input_text_is_plaintext o text config
    if initial_check_for_plaintext.is_identified then
      let crack_result :=
        { CrackResult.new defaultDecoderInfo text with
            checker_name := initial_check_for_plaintext.checker_name }
      some { text := [text], path := [crack_result] }
    else
      search_for_plaintext o fuel text config

/-! ## Spec-side definitions used to compare the code with claimed behavior,
and concrete oracles used in counterexamples and witnesses. -/

/-- The sum of the table scores over adjacent letter pairs, by structural
recursion (used to state what `quadgram_score` computes). -/
def bigramSumSpec : RString → ℚ
  | a :: b :: rest => qadd (bigramScore a b) (bigramSumSpec (b :: rest))
  | _ => 0

/-- The number of adjacent pairs of a list. -/
def pairCount (l : RString) : Nat := l.length - 1

/-- The bigram **mean** the specification describes: the per-pair average of
the table scores over the letters-only view. -/
def claimed_bigram_mean (text : RString) : ℚ :=
  let t := lettersOnly text
  qdiv (bigramSumSpec t) (natQ (pairCount t))

/-- The `is_likely_english` as the specification claims it behaves: length ≥ 10,
then for spaced text `word% > 10` OR two of
`{IC ∈ (0.045, 0.085), χ² < 80, bigram_mean > −7}`, and for unspaced text
two of those three. -/
def claimed_is_likely_english (text : RString) : Bool :=
  if utf8Length text < 10 then false
  else
    let ic := index_of_coincidence text
    let chi_sq := chi_squared_score text
    let mean := claimed_bigram_mean text
    let ic_ok := decide (mkRat 9 200 < ic) && decide (ic < mkRat 17 200)
    let chi_ok := decide (chi_sq < 80)
    let mean_ok := decide (-7 < mean)
    let two_of_three := 2 ≤ ic_ok.toNat + chi_ok.toNat + mean_ok.toNat
    if text.any (fun c => isWhitespace c) then decide (10 < word_score text) || two_of_three
    else two_of_three

/-- Filtration as the specification claims it behaves: tags **and** the
node's already-applied decoder set. -/
def claimed_filter_decoders_by_tags (text_struct : DecoderResult) (filter : DecoderFilter) :
    List DecoderPlugin :=
  DECODER_REGISTRY.filter (fun decoder =>
    filter.matches decoder.info && ¬ text_struct.applied.contains decoder.info.name)

/-- Oracles on which no external checker ever fires and the gibberish
detector calls everything gibberish (used to drive concrete runs in which
only forced successes can occur). -/
def negOracles : Oracles :=
  { lemmeknow := fun _ _ => false
    passwordCheck := fun _ _ => false
    regexCheck := fun _ _ => false
    wordlistCheck := fun _ _ => false
    isGibberish := fun _ _ => true
    human := fun _ => true }

/-- The all-negative Athena checker handed to decoders in concrete runs. -/
def negChecker : CheckerTypes := { o := negOracles, sens := .Low }

/-- Oracles on which the `lemmeknow` identifier fires exactly on
`"192.168.0.1"` (the repository's own early-exit test input). -/
def ipOracles : Oracles :=
  { negOracles with lemmeknow := fun t _ => t == str "192.168.0.1" }

/-- A search node whose path already contains a ROT5 `CrackResult` (its
"already applied" set contains `"ROT5"`). -/
def rot5AppliedNode : DecoderResult :=
  { text := [str "x"], path := [CrackResult.new rot5Info (str "x")] }

/-- The `CrackResult` invariant of spec §3: a successful result carries at
least one candidate and a populated checker reference. -/
def CrackInv (r : CrackResult) : Prop :=
  r.success = true → (∃ cs, r.unencrypted_text = some cs ∧ cs ≠ []) ∧ r.checker_name ≠ []

/-! # Theorems

First the bridging lemmas showing the kernel-computable rational wrappers
denote the field operations of `ℚ`, then shared helper lemmas, then one
theorem (with counterexample/witness where applicable) per claim. -/

/-- The wrapper `qadd` computes rational addition. -/
theorem qadd_eq (a b : ℚ) : qadd a b = a + b := (Rat.add_def' a b).symm

/-- The wrapper `qsub` computes rational subtraction. -/
theorem qsub_eq (a b : ℚ) : qsub a b = a - b := (Rat.sub_def' a b).symm

/-- The wrapper `qmul` computes rational multiplication. -/
theorem qmul_eq (a b : ℚ) : qmul a b = a * b := by
  rw [qmul, Rat.mul_def, Rat.normalize_eq_mkRat]

/-- The wrapper `qdiv` computes rational division. -/
theorem qdiv_eq (a b : ℚ) : qdiv a b = a / b := by
  unfold qdiv
  rcases eq_or_ne b.num 0 with h | h
  · have hb : b = 0 := by
      have := Rat.num_eq_zero.mp h
      exact this
    subst hb
    simp [Rat.divInt]
  · have hda : (a.den : ℤ) ≠ 0 := Int.ofNat_ne_zero.mpr a.den_nz
    rw [Rat.div_def, Rat.inv_def]
    conv_rhs => rw [← Rat.divInt_self a]
    rw [Rat.divInt_mul_divInt _ _ hda h]

/-- The wrapper `qsum` computes `List.sum`. -/
theorem qsum_eq (l : List ℚ) : qsum l = l.sum := by
  induction l with
  | nil => rfl
  | cons x xs ih => rw [qsum, qadd_eq, ih, List.sum_cons]

/-- The wrapper `qabs` computes the absolute value. -/
theorem qabs_eq (a : ℚ) : qabs a = |a| := by
  unfold qabs
  split
  · exact (abs_of_neg (by assumption)).symm
  · exact (abs_of_nonneg (not_lt.mp (by assumption))).symm

/-- The wrapper `natQ` computes the canonical cast `ℕ → ℚ`. -/
theorem natQ_eq (n : Nat) : natQ n = (n : ℚ) := rfl

/-- Two of four booleans hold iff some pair of them holds. -/
theorem two_of_four_iff (b1 b2 b3 b4 : Bool) :
    2 ≤ b1.toNat + b2.toNat + b3.toNat + b4.toNat ↔
      (b1 = true ∧ b2 = true) ∨ (b1 = true ∧ b3 = true) ∨ (b1 = true ∧ b4 = true) ∨
      (b2 = true ∧ b3 = true) ∨ (b2 = true ∧ b4 = true) ∨ (b3 = true ∧ b4 = true) := by
  cases b1 <;> cases b2 <;> cases b3 <;> cases b4 <;> simp

/-! ## C1 : `is_likely_english` -/

/-- C1 (counterexample): on `"qx zv jq kv pw"` — 14 bytes, containing
whitespace — the code's `is_likely_english` returns `true` while the
claimed rule (word% > 10 OR two of {IC ∈ (0.045, 0.085), χ² < 80,
bigram mean > −7}) yields `false`: the code has no whitespace branch and
uses the four conditions {IC ∈ (0.04, 0.09), χ² < 100, word% > 15,
bigram sum > −300}. -/
theorem claim_C1_counterexample :
    is_likely_english (str "qx zv jq kv pw") = true ∧
    claimed_is_likely_english (str "qx zv jq kv pw") = false ∧
    10 ≤ utf8Length (str "qx zv jq kv pw") ∧
    (str "qx zv jq kv pw").any (fun c => isWhitespace c) = true := by decide

/-- C1 (amended): for every string `t`, `is_likely_english t` is true iff
`t` is at least 10 bytes long and at least two of the four conditions
{IC ∈ (0.04, 0.09), χ² < 100, word% > 15, bigram sum > −300} hold —
with no whitespace case split and no word-score disjunct. -/
theorem claim_C1_amended (t : RString) :
    is_likely_english t = true ↔
      10 ≤ utf8Length t ∧
      ((mkRat 1 25 < index_of_coincidence t ∧ index_of_coincidence t < mkRat 9 100) ∧
          chi_squared_score t < 100 ∨
        (mkRat 1 25 < index_of_coincidence t ∧ index_of_coincidence t < mkRat 9 100) ∧
          (15 : ℚ) < word_score t ∨
        (mkRat 1 25 < index_of_coincidence t ∧ index_of_coincidence t < mkRat 9 100) ∧
          (-300 : ℚ) < quadgram_score t ∨
        chi_squared_score t < 100 ∧ (15 : ℚ) < word_score t ∨
        chi_squared_score t < 100 ∧ (-300 : ℚ) < quadgram_score t ∨
        (15 : ℚ) < word_score t ∧ (-300 : ℚ) < quadgram_score t) := by
  unfold is_likely_english
  by_cases h : utf8Length t < 10
  · simp only [if_pos h]
    constructor
    · intro hfalse
      exact absurd hfalse (by simp)
    · intro ⟨h10, _⟩
      omega
  · simp only [if_neg h]
    have h10 : 10 ≤ utf8Length t := Nat.le_of_not_lt h
    rw [decide_eq_true_iff, two_of_four_iff]
    simp only [Bool.and_eq_true, decide_eq_true_iff]
    constructor
    · intro hc
      exact ⟨h10, by tauto⟩
    · intro ⟨_, hc⟩
      tauto

/-! ## C2 : `quadgram_score` -/

/-- The windowed pair sum in `quadgram_score` equals the structural pair
sum. -/
theorem zipTail_bigram_sum (l : RString) :
    qsum ((l.zip l.tail).map (fun w => bigramScore w.1 w.2)) = bigramSumSpec l := by
  induction l with
  | nil => rfl
  | cons a xs ih =>
    cases xs with
    | nil => rfl
    | cons b rest =>
      show qsum (((a :: b :: rest).zip (b :: rest)).map _) = _
      rw [List.zip_cons_cons, List.map_cons]
      show qadd (bigramScore a b) (qsum (((b :: rest).zip rest).map _)) = _
      rw [show ((b :: rest).zip rest) = ((b :: rest).zip (b :: rest).tail) from rfl, ih]
      rfl

/-- C2 (counterexample): on `"TH"` — two letters — the code returns
`f64::MIN`, not the claimed mean `−2.0`; and on `"THETHETHE"` the code
returns the **sum** `−32.3` of the eight pair scores, not their mean
`−4.0375`. -/
theorem claim_C2_counterexample :
    2 ≤ (lettersOnly (str "TH")).length ∧
    claimed_bigram_mean (str "TH") = -2 ∧
    quadgram_score (str "TH") = f64MIN ∧
    quadgram_score (str "TH") ≠ claimed_bigram_mean (str "TH") ∧
    quadgram_score (str "THETHETHE") = mkRat (-323) 10 ∧
    claimed_bigram_mean (str "THETHETHE") = mkRat (-323) 80 ∧
    quadgram_score (str "THETHETHE") ≠ claimed_bigram_mean (str "THETHETHE") := by decide

/-- C2 (amended): for every string, when the uppercase letters-only form
has at least 4 letters `quadgram_score` returns the **sum** over all
adjacent letter pairs of the table log-probability (default `−10.0` for
absent pairs), and for fewer than 4 letters it returns `f64::MIN` (the
claimed mean and the claimed 2-letter threshold are both wrong). -/
theorem claim_C2_amended (t : RString) :
    (4 ≤ (lettersOnly t).length → quadgram_score t = bigramSumSpec (lettersOnly t)) ∧
    ((lettersOnly t).length < 4 → quadgram_score t = f64MIN) := by
  constructor
  · intro h4
    unfold quadgram_score
    rw [if_neg (by omega)]
    exact zipTail_bigram_sum (lettersOnly t)
  · intro h4
    unfold quadgram_score
    rw [if_pos h4]

/-- C2 (witness): the amended theorem evaluated on `"THETHETHE"`. -/
theorem claim_C2_amended_witness :
    quadgram_score (str "THETHETHE") = bigramSumSpec (lettersOnly (str "THETHETHE")) :=
  (claim_C2_amended (str "THETHETHE")).1 (by decide)

/-! ## C3 : the English checker's cryptanalysis fallback -/

/-- C3: when the gibberish detector (at the sensitivity actually consulted:
High under enhanced detection, the checker's own otherwise) classifies the
normalized text as gibberish and the normalized length is at least 30, the
English checker identifies the text exactly when IC ∈ (0.055, 0.075) AND
word% > 40 AND fitness > −150; and a normalized length below 2 always
yields a negative result. -/
theorem claim_C3 (o : Oracles) (sens : Sensitivity) (t : RString) (cfg : Config) :
    (o.isGibberish (normalise_string t) (if cfg.enhanced_detection then .High else sens) = true →
      30 ≤ utf8Length (normalise_string t) →
      ((english_check o sens t cfg).is_identified = true ↔
        (mkRat 11 200 < index_of_coincidence (normalise_string t) ∧
         index_of_coincidence (normalise_string t) < mkRat 3 40 ∧
         (40 : ℚ) < word_score (normalise_string t) ∧
         (-150 : ℚ) < fitness_score (normalise_string t)))) ∧
    (utf8Length (normalise_string t) < 2 →
      (english_check o sens t cfg).is_identified = false) := by
  constructor
  · intro hgib h30
    have h2 : ¬ (utf8Length (normalise_string t) < 2) := by omega
    unfold english_check
    simp only [if_neg h2, if_pos h30]
    by_cases he : cfg.enhanced_detection
    · simp only [if_pos he] at hgib ⊢
      rw [hgib]
      simp [Bool.and_eq_true, decide_eq_true_iff, and_assoc]
    · simp only [if_neg he] at hgib ⊢
      rw [hgib]
      simp [Bool.and_eq_true, decide_eq_true_iff, and_assoc]
  · intro h2
    unfold english_check
    simp only [if_pos h2]

/-- C3 (witness): the theorem applied to thirty `'a'`s with a detector that
says gibberish at every sensitivity. -/
theorem claim_C3_witness :
    (english_check negOracles .Low (str "aaaaaaaaaaaaaaaaaaaaaaaaaaaaaa") {}).is_identified
        = true ↔
      (mkRat 11 200 < index_of_coincidence (normalise_string (str "aaaaaaaaaaaaaaaaaaaaaaaaaaaaaa")) ∧
       index_of_coincidence (normalise_string (str "aaaaaaaaaaaaaaaaaaaaaaaaaaaaaa")) < mkRat 3 40 ∧
       (40 : ℚ) < word_score (normalise_string (str "aaaaaaaaaaaaaaaaaaaaaaaaaaaaaa")) ∧
       (-150 : ℚ) < fitness_score (normalise_string (str "aaaaaaaaaaaaaaaaaaaaaaaaaaaaaa"))) :=
  (claim_C3 negOracles .Low (str "aaaaaaaaaaaaaaaaaaaaaaaaaaaaaa") {}).1 (by decide) (by decide)

/-! ## C9 : ROT5 and ROT18 are self-inverse -/

/-- The ROT5 character map is an involution. -/
theorem rot5Char_invol (c : Nat) : rot5Char (rot5Char c) = c := by
  unfold rot5Char isAsciiDigit
  split_ifs with h1 h2 h3 <;>
    simp only [Bool.and_eq_true, decide_eq_true_iff] at * <;> omega

/-- The ROT18 character map is an involution. -/
theorem rot18Char_invol (c : Nat) : rot18Char (rot18Char c) = c := by
  unfold rot18Char isAsciiAlphabetic isAsciiLowercase isAsciiUppercase isAsciiDigit
  split_ifs <;>
    simp only [Bool.and_eq_true, Bool.or_eq_true, decide_eq_true_iff] at * <;> omega

/-- Mapping an involution twice over a list is the identity. -/
theorem map_invol {f : Nat → Nat} (h : ∀ c, f (f c) = c) (s : List Nat) :
    (s.map f).map f = s := by
  induction s with
  | nil => rfl
  | cons a xs ih => simp [h, ih]

/-- C9: `rot5 ∘ rot5` and `rot18 ∘ rot18` are the identity on every string;
ROT5 rotates exactly the ASCII digits by 5 mod 10 and leaves everything
else unchanged, and ROT18 rotates ASCII letters by 13 (within their case)
and ASCII digits by 5, leaving every other character unchanged. -/
theorem claim_C9 :
    (∀ s : RString, rot5 (rot5 s) = s ∧ rot18 (rot18 s) = s) ∧
    (∀ c : Nat,
      (isAsciiDigit c = false → rot5Char c = c) ∧
      (isAsciiDigit c = true → rot5Char c = (c - 48 + 5) % 10 + 48) ∧
      (isAsciiLowercase c = true → rot18Char c = (c - 97 + 13) % 26 + 97) ∧
      (isAsciiUppercase c = true → rot18Char c = (c - 65 + 13) % 26 + 65) ∧
      (isAsciiDigit c = true → rot18Char c = (c - 48 + 5) % 10 + 48) ∧
      (isAsciiAlphanumeric c = false → rot18Char c = c)) := by
  constructor
  · intro s
    exact ⟨map_invol rot5Char_invol s, map_invol rot18Char_invol s⟩
  · intro c
    unfold rot5Char rot18Char isAsciiAlphanumeric isAsciiAlphabetic
      isAsciiLowercase isAsciiUppercase isAsciiDigit
    refine ⟨?_, ?_, ?_, ?_, ?_, ?_⟩ <;>
      intro h <;>
      simp only [Bool.and_eq_true, Bool.or_eq_true, Bool.and_eq_false_iff,
        Bool.or_eq_false_iff, decide_eq_true_iff, decide_eq_false_iff_not] at h <;>
      split_ifs <;>
      simp only [Bool.and_eq_true, Bool.or_eq_true, decide_eq_true_iff] at * <;>
      omega

/-- C9 (witness): the involution on a concrete mixed string and the
only-digits conjunct at the concrete non-digit `'A'`. -/
theorem claim_C9_witness :
    rot5 (rot5 (str "abc123")) = str "abc123" ∧ rot5Char 65 = 65 :=
  ⟨(claim_C9.1 (str "abc123")).1, (claim_C9.2 65).1 (by decide)⟩

/-! ## C10 : top-results mode forces the human checker off -/

/-- C10: with `top_results` set, `perform_cracking` forces
`human_checker_on` to false before anything else: the normalized
configuration carries `human_checker_on = false`, the human-confirmation
collaborator is never consulted under it, and the result of
`perform_cracking` is the same as if the caller had disabled the human
checker themselves. -/
theorem claim_C10 (cfg : Config) (h : cfg.top_results = true) :
    (normalize_config cfg).human_checker_on = false ∧
    (∀ (o : Oracles) (res : CheckResult), human_checker o res (normalize_config cfg) = true) ∧
    (∀ (o : Oracles) (cache : RString → Option DecoderResult) (fuel : Nat) (x : RString),
      perform_cracking o cache fuel x cfg =
        perform_cracking o cache fuel x { cfg with human_checker_on := false }) := by
  have hn : normalize_config cfg = { cfg with human_checker_on := false } := by
    simp [normalize_config, h]
  refine ⟨by rw [hn], ?_, ?_⟩
  · intro o res
    rw [hn]
    simp [human_checker]
  · intro o cache fuel x
    unfold perform_cracking
    have hn2 : normalize_config { cfg with human_checker_on := false } =
        { cfg with human_checker_on := false } := by
      simp [normalize_config, h]
    rw [hn, hn2]

/-- C10 (witness): applied to a configuration with both `top_results` and
`human_checker_on` enabled. -/
theorem claim_C10_witness :
    (normalize_config { top_results := true, human_checker_on := true }).human_checker_on
      = false :=
  (claim_C10 { top_results := true, human_checker_on := true } rfl).1

/-! ## C7 : filtration ignores the node's already-applied set -/

/-- C7 (counterexample): a node whose path already contains ROT5 still has
the ROT5 decoder selected by `filter_decoders_by_tags` under the empty
filter — the node argument is `_text_struct` and is ignored — whereas the
claimed selection (tags AND not-already-applied) would exclude it. -/
theorem claim_C7_counterexample :
    rot5AppliedNode.applied.contains (str "ROT5") = true ∧
    ((filter_decoders_by_tags rot5AppliedNode {}).map
        (fun d => d.info.name)).contains (str "ROT5") = true ∧
    ((claimed_filter_decoders_by_tags rot5AppliedNode {}).map
        (fun d => d.info.name)).contains (str "ROT5") = false := by decide

/-- C7 (amended): filtration selects decoders by the include-tag set (at
least one tag must match when the set is non-empty) and the exclude-tag set
(no tag may match) **only**; the candidate node is ignored, so the same
decoders are selected whatever decoders the node's path has already
applied. -/
theorem claim_C7_amended :
    (∀ (node node' : DecoderResult) (filter : DecoderFilter),
      filter_decoders_by_tags node filter = filter_decoders_by_tags node' filter) ∧
    (∀ (filter : DecoderFilter) (info : DecoderInfo),
      filter.matches info = true ↔
        ((filter.include_tags = [] ∨ ∃ t ∈ filter.include_tags, t ∈ info.tags) ∧
         (∀ t ∈ filter.exclude_tags, t ∉ info.tags))) := by
  constructor
  · intro node node' filter
    rfl
  · intro f info
    unfold DecoderFilter.matches
    dsimp only
    cases hi : f.include_tags.isEmpty <;>
      cases ha : f.include_tags.any (fun it => info.tags.any (fun tag => tag == it)) <;>
      cases he : f.exclude_tags.isEmpty <;>
      cases hb : f.exclude_tags.any (fun et => info.tags.any (fun tag => tag == et)) <;>
      simp only [hi, ha, he, hb, Bool.not_true, Bool.not_false, Bool.and_self,
        Bool.true_and, Bool.false_and, Bool.and_true, Bool.and_false,
        if_true, if_false] <;>
      simp_all [List.isEmpty_iff, List.isEmpty_eq_false, List.any_eq_true,
        List.any_eq_false, beq_iff_eq]

/-- C7 (witness): the tag-only selection is the same for the
ROT5-already-applied node as for a fresh node. -/
theorem claim_C7_amended_witness :
    filter_decoders_by_tags rot5AppliedNode {} =
      filter_decoders_by_tags { text := [], path := [] } {} :=
  claim_C7_amended.1 rot5AppliedNode { text := [], path := [] } {}

/-! ## C6 : the early-exit chain and its decoder name -/

/-- C6 (counterexample): on `"192.168.0.1"` with a domain identifier that
fires, the early-exit path has exactly one entry, but its `decoder` field is
`"Default decoder"` (as the repository's own test asserts), not `"Default"`
as claimed. -/
theorem claim_C6_counterexample :
    (check_if_input_text_is_plaintext ipOracles (str "192.168.0.1") {}).is_identified = true ∧
    perform_cracking ipOracles (fun _ => none) 5 (str "192.168.0.1") {} =
      some { text := [str "192.168.0.1"],
             path := [{ decoder := str "Default decoder",
                        encrypted_text := str "192.168.0.1",
                        unencrypted_text := none, key := none, success := false,
                        checker_name := str "LemmeKnow Checker",
                        checker_description := [] }] } ∧
    ¬ str "Default decoder" = str "Default" := by decide

/-- C6 (amended): whenever the cache misses and the top-level plaintext
check fires on the input, `perform_cracking` returns a result whose path
has length exactly 1 and whose single entry's decoder field is
`"Default decoder"`. -/
theorem claim_C6_amended (o : Oracles) (cache : RString → Option DecoderResult) (fuel : Nat)
    (x : RString) (cfg : Config)
    (hcache : cache x = none)
    (hfires : (check_if_input_text_is_plaintext o x (normalize_config cfg)).is_identified
      = true) :
    ∃ (r : DecoderResult) (cr : CrackResult),
      perform_cracking o cache fuel x cfg = some r ∧
      r.path = [cr] ∧ cr.decoder = str "Default decoder" ∧ r.path.length = 1 := by
  unfold perform_cracking
  simp only [hcache, hfires, if_true]
  exact ⟨_, _, rfl, rfl, rfl, rfl⟩

/-- C6 (witness): the amended theorem at the repository's own early-exit
test input. -/
theorem claim_C6_amended_witness :
    ∃ (r : DecoderResult) (cr : CrackResult),
      perform_cracking ipOracles (fun _ => none) 3 (str "192.168.0.1") {} = some r ∧
      r.path = [cr] ∧ cr.decoder = str "Default decoder" ∧ r.path.length = 1 :=
  claim_C6_amended ipOracles (fun _ => none) 3 (str "192.168.0.1") {} rfl (by decide)

/-! ## C8 : the `CrackResult` success invariant -/

/-- The Athena façade always records a non-empty checker name. -/
theorem athena_checker_name_ne_nil (o : Oracles) (sens : Sensitivity) (t : RString)
    (cfg : Config) : (athena_check o sens t cfg).checker_name ≠ [] := by
  unfold athena_check athenaWrap CheckResult.fresh
  dsimp only
  split_ifs <;> simp [str]

/-- The `CheckerTypes.check` always records a non-empty checker name. -/
theorem checkerTypes_check_name_ne_nil (ct : CheckerTypes) (t : RString) (cfg : Config) :
    (ct.check t cfg).checker_name ≠ [] :=
  athena_checker_name_ne_nil ct.o ct.sens t cfg

/-- A fresh `CrackResult` satisfies the invariant vacuously. -/
theorem crackInv_new (d : DecoderInfo) (t : RString) : CrackInv (CrackResult.new d t) := by
  intro hs
  exact absurd hs (by simp [CrackResult.new])

/-- The `update_checker` on a result holding the single candidate `[s]`
satisfies the invariant whenever the checker result comes from the Athena
façade. -/
theorem crackInv_update (r : CrackResult) (s : RString) (ct : CheckerTypes) (t : RString)
    (cfg : Config) :
    CrackInv ((CrackResult.update_checker
      { r with unencrypted_text := some [s] } (ct.check t cfg))) := by
  intro _
  exact ⟨⟨[s], rfl, by simp⟩, checkerTypes_check_name_ne_nil ct t cfg⟩

/-- The XOR brute-force loop preserves the invariant: starting from an
unsuccessful result, a successful return carries a non-empty candidate list
and a checker name. -/
theorem xorCrackGo_inv (ct : CheckerTypes) (cfg : Config) (text : RString) :
    ∀ (keys : List Nat) (acc : List RString) (results : CrackResult),
      results.success = false →
      CrackInv (xorCrackGo ct cfg text results acc keys) := by
  intro keys
  induction keys with
  | nil =>
    intro acc results h0
    unfold xorCrackGo
    split <;> intro hs <;> simp_all
  | cons key rest ih =>
    intro acc results h0
    unfold xorCrackGo
    cases utf8Decode (List.map (fun b => b ^^^ key) (utf8Encode text)) with
    | none => exact ih _ _ h0
    | some s =>
      dsimp only
      split_ifs <;>
        first
          | exact ih _ _ h0
          | exact fun _ => ⟨⟨[s], rfl, by simp⟩, checkerTypes_check_name_ne_nil ct s cfg⟩

/-- The hash-dictionary loop preserves the invariant. -/
theorem hashCrackGo_inv (ct : CheckerTypes) (text : RString) (ht : Nat) :
    ∀ (ps : List RString) (results : CrackResult),
      results.success = false →
      CrackInv (hashCrackGo ct results text ht ps) := by
  intro ps
  induction ps with
  | nil =>
    intro results h0
    unfold hashCrackGo
    intro hs
    simp_all
  | cons p rest ih =>
    intro results h0
    unfold hashCrackGo
    split_ifs <;>
      first
        | exact ih _ h0
        | exact fun _ => ⟨⟨[p], rfl, by simp⟩, checkerTypes_check_name_ne_nil ct p {}⟩

/-- ROT5's crack satisfies the invariant. -/
theorem rot5_crack_inv (text : RString) (ct : CheckerTypes) (cfg : Config) :
    CrackInv (rot5_crack text ct cfg) := by
  unfold rot5_crack
  dsimp only
  split_ifs <;>
    first
      | exact crackInv_new _ _
      | exact crackInv_update _ _ _ _ _

/-- ROT18's crack satisfies the invariant. -/
theorem rot18_crack_inv (text : RString) (ct : CheckerTypes) (cfg : Config) :
    CrackInv (rot18_crack text ct cfg) := by
  unfold rot18_crack
  dsimp only
  split_ifs <;>
    first
      | exact crackInv_new _ _
      | exact crackInv_update _ _ _ _ _

/-- HashCrack's crack satisfies the invariant. -/
theorem hash_crack_inv (text : RString) (ct : CheckerTypes) :
    CrackInv (hash_crack text ct) := by
  unfold hash_crack
  dsimp only
  split_ifs <;>
    first
      | exact crackInv_new _ _
      | exact hashCrackGo_inv ct _ _ _ _ rfl

/-- C8: for every decoder in the registry, on any input, checker and
config, a returned `CrackResult` with `success = true` carries at least one
candidate and a populated checker reference; with `success = false` the
candidate list is unconstrained (the two cases are mutually exclusive by
definition of `Bool`). -/
theorem claim_C8 (d : DecoderPlugin) (hd : d ∈ DECODER_REGISTRY) (text : RString)
    (ct : CheckerTypes) (cfg : Config)
    (hsucc : (d.crack text ct cfg).success = true) :
    (∃ cs, (d.crack text ct cfg).unencrypted_text = some cs ∧ cs ≠ []) ∧
      (d.crack text ct cfg).checker_name ≠ [] := by
  simp only [DECODER_REGISTRY, List.mem_cons, List.not_mem_nil, or_false] at hd
  have hinv : CrackInv (d.crack text ct cfg) := by
    rcases hd with h | h | h | h <;> subst h
    · exact hash_crack_inv text ct
    · exact xorCrackGo_inv _ cfg text _ [] _ rfl
    · exact rot5_crack_inv text ct cfg
    · exact rot18_crack_inv text ct cfg
  exact hinv hsucc

/-- C8 (witness): the invariant instantiated with the HashCrack decoder on
the MD5 of `"password"`, where the crack succeeds. -/
theorem claim_C8_witness :
    (∃ cs, (hashCrackPlugin.crack (str "5f4dcc3b5aa765d61d8327deb882cf99") negChecker
        {}).unencrypted_text = some cs ∧ cs ≠ []) ∧
      (hashCrackPlugin.crack (str "5f4dcc3b5aa765d61d8327deb882cf99") negChecker
        {}).checker_name ≠ [] :=
  claim_C8 hashCrackPlugin (by simp [DECODER_REGISTRY])
    (str "5f4dcc3b5aa765d61d8327deb882cf99") negChecker {} (by decide)

/-! ## C4 : behavior on the empty input -/

/-- On the empty input every XOR key yields the empty string (a valid UTF-8
decoding), which fails the not-trivial filter, so the loop accumulates one
empty candidate per key. -/
theorem xorCrackGo_empty (ct : CheckerTypes) (cfg : Config) (results : CrackResult) :
    ∀ (keys : List Nat) (acc : List RString),
      xorCrackGo ct cfg [] results acc keys =
        (if (acc ++ List.replicate keys.length []).isEmpty then results
         else { results with unencrypted_text := some (acc ++ List.replicate keys.length []) }) := by
  intro keys
  induction keys with
  | nil =>
    intro acc
    unfold xorCrackGo
    simp
  | cons key rest ih =>
    intro acc
    unfold xorCrackGo
    have hdec : utf8Decode (List.map (fun b => b ^^^ key) (utf8Encode ([] : RString)))
        = some [] := rfl
    rw [hdec]
    dsimp only
    rw [if_pos (by decide)]
    rw [ih (acc ++ [[]])]
    simp [List.append_assoc, List.replicate_succ]

/-- The XOR decoder on the empty string: 255 empty-string candidates. -/
theorem xor_crack_empty (ct : CheckerTypes) (cfg : Config) :
    xor_crack [] ct cfg =
      { CrackResult.new xorInfo [] with unencrypted_text := some (List.replicate 255 []) } := by
  unfold xor_crack
  rw [xorCrackGo_empty]
  simp

/-- The BFS loop returns `none` on an empty frontier. -/
theorem search_loop_nil (ct : CheckerTypes) (cfg : Config) :
    ∀ (m : Nat) (seen : List RString), search_loop ct cfg m [] seen = none
  | 0, _ => rfl
  | _ + 1, _ => rfl

/-- The search finds nothing on the empty input: the only candidates
produced are empty strings, which are never enqueued. -/
theorem search_empty (o : Oracles) (fuel : Nat) (cfg : Config) :
    search_for_plaintext o fuel [] cfg = none := by
  cases fuel with
  | zero => rfl
  | succ n =>
    show search_loop { o := o, sens := .Low } cfg n [] [[]] = none
    exact search_loop_nil _ _ n [[]]

/-- C4 (counterexample): the single-byte XOR decoder does **not** return an
empty candidate list on the empty string: it returns 255 empty-string
candidates, one per key. -/
theorem claim_C4_counterexample :
    (xor_crack [] negChecker {}).unencrypted_text = some (List.replicate 255 []) ∧
    ¬ (xor_crack [] negChecker {}).unencrypted_text = none ∧
    (List.replicate 255 ([] : RString)).length = 255 := by decide

/-- C4 (amended): on empty input `perform_cracking` returns `none` (given a
cache miss and external checkers that do not fire on the empty string), and
the ROT5, ROT18 and HashCrack decoders return no candidates — but the XOR
decoder returns 255 empty-string candidates rather than none. -/
theorem claim_C4_amended (o : Oracles) (cache : RString → Option DecoderResult) (fuel : Nat)
    (cfg : Config) (ct : CheckerTypes) (cfg' : Config)
    (hcache : cache [] = none)
    (hlem : o.lemmeknow [] {} = false)
    (hpw : o.passwordCheck [] {} = false) :
    perform_cracking o cache fuel [] cfg = none ∧
    (rot5_crack [] ct cfg').unencrypted_text = none ∧
    (rot18_crack [] ct cfg').unencrypted_text = none ∧
    (hash_crack [] ct).unencrypted_text = none ∧
    (xor_crack [] ct cfg').unencrypted_text = some (List.replicate 255 []) := by
  refine ⟨?_, rfl, rfl, rfl, by rw [xor_crack_empty]⟩
  unfold perform_cracking
  simp only [hcache]
  have heng : (english_check o .Low [] ({} : Config)).is_identified = false := rfl
  have hath : (athena_check o .Low [] ({} : Config)).is_identified = false := by
    unfold athena_check oracleResult
    dsimp only
    simp only [hlem, hpw, heng, Option.isSome_none, Bool.false_and, Bool.false_eq_true,
      if_false, CheckResult.fresh]
  have hinit : (check_if_input_text_is_plaintext o [] (normalize_config cfg)).is_identified
      = false := by
    unfold check_if_input_text_is_plaintext
    split_ifs with ht
    · simp [wait_athena_check]
    · exact hath
  simp only [hinit, Bool.false_eq_true, if_false]
  exact search_empty o fuel _

/-- C4 (witness): the amended theorem under the all-negative oracles. -/
theorem claim_C4_amended_witness :
    perform_cracking negOracles (fun _ => none) 4 [] {} = none :=
  (claim_C4_amended negOracles (fun _ => none) 4 {} negChecker {} rfl rfl rfl).1

/-! ## C5 : the hash-dictionary decoder -/

/-- The `hash_crack` either rejects (returning the fresh result) or runs the
dictionary loop on the cleaned input. -/
theorem hash_crack_eq (t : RString) (ct : CheckerTypes) :
    hash_crack t ct = CrackResult.new hashCrackInfo t ∨
      hash_crack t ct = hashCrackGo ct (CrackResult.new hashCrackInfo t)
        (toLowercase (trim t)) (utf8Length (toLowercase (trim t))) common_passwords := by
  unfold hash_crack
  dsimp only
  split_ifs <;> first | exact Or.inl rfl | exact Or.inr rfl

/-- A successful dictionary loop returns some listed password as the single
candidate, and that password's hash equals the cleaned input. -/
theorem hashCrackGo_sound (ct : CheckerTypes) (text : RString) (ht : Nat) :
    ∀ (ps : List RString) (results : CrackResult),
      results.success = false →
      (hashCrackGo ct results text ht ps).success = true →
      ∃ p ∈ ps, (hashCrackGo ct results text ht ps).unencrypted_text = some [p] ∧
        hashOf ht p = text := by
  intro ps
  induction ps with
  | nil =>
    intro results h0 hs
    unfold hashCrackGo at hs
    simp_all
  | cons p rest ih =>
    intro results h0 hs
    unfold hashCrackGo at hs ⊢
    split_ifs at hs ⊢ with h1 h2 <;>
      first
        | (exact ⟨p, by simp, rfl, eq_of_beq h1⟩)
        | (obtain ⟨q, hq, hu, hh⟩ := ih _ h0 hs
           exact ⟨q, by simp [hq], hu, hh⟩)

/-- C5 (counterexample): on the MD5 of `"password"` the end-to-end result is
plaintext `"password"` with a one-element `HashCrack` path — but no key is
recorded: the `key` field is `none`, not `"MD5"` as claimed (the decoder
never assigns `results.key`). -/
theorem claim_C5_counterexample :
    perform_cracking negOracles (fun _ => none) 5 (str "5f4dcc3b5aa765d61d8327deb882cf99") {} =
      some { text := [str "password"],
             path := [{ decoder := str "HashCrack",
                        encrypted_text := str "5f4dcc3b5aa765d61d8327deb882cf99",
                        unencrypted_text := some [str "password"],
                        key := none, success := true,
                        checker_name := str "Athena Checker",
                        checker_description := str "Runs all available checkers" }] } ∧
    (hash_crack (str "5f4dcc3b5aa765d61d8327deb882cf99") negChecker).key = none ∧
    ¬ (hash_crack (str "5f4dcc3b5aa765d61d8327deb882cf99") negChecker).key
        = some (str "MD5") := by decide

/-- C5 (amended): the hash decoder returns no candidates unless the trimmed,
lowercased input is entirely hex of length 32, 40 or 64; a successful crack
returns some password of the built-in list as the single candidate, whose
hash (for the detected type) equals the cleaned input, with the checker
result forced to identified; and on `"5f4dcc3b5aa765d61d8327deb882cf99"`
the end-to-end result is plaintext `"password"` with path `[HashCrack]` —
with **no** key recorded (the `key` field stays `none`). -/
theorem claim_C5_amended :
    (∀ (t : RString) (ct : CheckerTypes),
      (¬ (utf8Length (toLowercase (trim t)) = 32 ∨ utf8Length (toLowercase (trim t)) = 40 ∨
            utf8Length (toLowercase (trim t)) = 64) ∨
        ¬ ((toLowercase (trim t)).all (fun c => isAsciiHexdigit c) = true)) →
      hash_crack t ct = CrackResult.new hashCrackInfo t) ∧
    (∀ (t : RString) (ct : CheckerTypes),
      (hash_crack t ct).success = true →
      ∃ p ∈ common_passwords,
        (hash_crack t ct).unencrypted_text = some [p] ∧
        hashOf (utf8Length (toLowercase (trim t))) p = toLowercase (trim t)) ∧
    perform_cracking negOracles (fun _ => none) 1 (str "5f4dcc3b5aa765d61d8327deb882cf99") {} =
      some { text := [str "password"],
             path := [{ decoder := str "HashCrack",
                        encrypted_text := str "5f4dcc3b5aa765d61d8327deb882cf99",
                        unencrypted_text := some [str "password"],
                        key := none, success := true,
                        checker_name := str "Athena Checker",
                        checker_description := str "Runs all available checkers" }] } := by
  refine ⟨?_, ?_, by decide⟩
  · intro t ct h
    unfold hash_crack
    dsimp only
    split_ifs with h1 h2
    · exfalso
      rcases h with h | h
      · simp only [Bool.or_eq_true, decide_eq_true_iff] at h1
        tauto
      · exact h h2
    · rfl
    · rfl
  · intro t ct hs
    rcases hash_crack_eq t ct with he | he <;> rw [he] at hs ⊢
    · exact absurd hs (by simp [CrackResult.new])
    · exact hashCrackGo_sound ct _ _ common_passwords _ rfl hs

/-- C5 (witness): the reject branch on a non-hash input, and the soundness
conjunct on the MD5 of `"password"`. -/
theorem claim_C5_amended_witness :
    hash_crack (str "zz") negChecker = CrackResult.new hashCrackInfo (str "zz") ∧
    ∃ p ∈ common_passwords,
      (hash_crack (str "5f4dcc3b5aa765d61d8327deb882cf99") negChecker).unencrypted_text
          = some [p] ∧
      hashOf (utf8Length (toLowercase (trim (str "5f4dcc3b5aa765d61d8327deb882cf99")))) p
          = toLowercase (trim (str "5f4dcc3b5aa765d61d8327deb882cf99")) :=
  ⟨claim_C5_amended.1 (str "zz") negChecker (Or.inl (by decide)),
   claim_C5_amended.2.1 (str "5f4dcc3b5aa765d61d8327deb882cf99") negChecker (by decide)⟩

end Ares
